import Mathlib

/-!
A shallow embedding of the RADOS-backed LevelDB environment
(src/cbits/RadosEnv.cpp, with src/main.cpp as the synchronous variant):
the flat object store, the sequential and random-access readers, the
asynchronous append writer with its outstanding-completion set, and the
namespace and rename operations, together with theorems settling the
specified contracts.
-/

namespace RadosLevelDB

/-- The content of one backend object: a list of byte values. -/
abbrev Bytes := List Nat

/-- The uint64_t modulus used by the sequential reader's cursor arithmetic. -/
def U64 : Nat := 2 ^ 64

/-- leveldb::Status as the adapter produces it: OK, or an IOError built by
IOError(context, strerror(errnum)) carrying the context string and the
positive errno value. -/
inductive Status where
  | ok : Status
  | ioFail (context : String) (errnum : Int) : Status
deriving DecidableEq, Repr

/-- Whether a Status is OK (s.ok() in leveldb). -/
def Status.isOk : Status → Bool
  | Status.ok => true
  | Status.ioFail _ _ => false

/-- The RADOS pool's flat namespace: object name to byte content, as an
association list with at most one binding per name. -/
abbrev Store := List (String × Bytes)

/-- Look an object up by name. -/
def lookupObj : Store → String → Option Bytes
  | [], _ => none
  | (k, v) :: rest, name => if k = name then some v else lookupObj rest name

/-- Drop every binding of the given name. -/
def eraseObj : Store → String → Store
  | [], _ => []
  | (k, v) :: rest, name =>
      if k = name then eraseObj rest name else (k, v) :: eraseObj rest name

/-- Bind a name to fresh content, replacing any previous binding. -/
def insertObj (s : Store) (name : String) (v : Bytes) : Store :=
  (name, v) :: eraseObj s name

/-- librados stat at the backend boundary (spec section 6): an error code
(0 on success, -ENOENT when the object is absent) together with the object's
size in bytes. -/
def radosStat (s : Store) (name : String) : Int × Nat :=
  match lookupObj s name with
  | none => (-2, 0)
  | some data => (0, data.length)

/-- librados ranged read at the backend boundary: the bytes of the interval
[off, off+n) of the object (short at end-of-object), or -ENOENT when the
object is absent. -/
def radosReadObj (s : Store) (name : String) (n off : Nat) : Except Int Bytes :=
  match lookupObj s name with
  | none => Except.error (-2)
  | some data => Except.ok ((data.drop off).take n)

/-- librados write_full: full replacement of the object's content. -/
def radosWriteFull (s : Store) (name : String) (bl : Bytes) : Int × Store :=
  (0, insertObj s name bl)

/-- librados remove: delete the object, -ENOENT when it is absent. -/
def radosRemove (s : Store) (name : String) : Int × Store :=
  match lookupObj s name with
  | none => (-2, s)
  | some _ => (0, eraseObj s name)

/-- librados create with exclusive = true, as NewWritableFile calls it:
-EEXIST when the object already exists, otherwise creates it empty. -/
def radosCreate (s : Store) (name : String) : Int × Store :=
  match lookupObj s name with
  | some _ => (-17, s)
  | none => (0, insertObj s name [])

/-- The test ctx->stat(...) < 0 at the heart of RadosEnv::FileExists: any
negative stat code yields false, any success yields true; the result is a
plain Bool, so no backend error can propagate. -/
def fileExistsFromCode (code : Int) : Bool :=
  if code < 0 then false else true

/-- RadosEnv::FileExists: one stat call fed to the sign test. -/
def FileExists (s : Store) (fname : String) : Bool :=
  fileExistsFromCode (radosStat s fname).1

/-- RadosWritableFile: the writer remembers only its object name; completion
state lives on the shared IoCtx. -/
structure RadosWritableFile where
  fname : String
deriving DecidableEq, Repr

/-- RadosEnv::NewWritableFile: first ctx->create(fname, true); a negative
code surfaces as IOError and no writer is constructed, otherwise the writer
is returned. -/
def NewWritableFile (s : Store) (fname : String) :
    Status × Store × Option RadosWritableFile :=
  let r := radosCreate s fname
  if r.1 < 0 then (Status.ioFail ("NewWritableFile: " ++ fname) (-r.1), r.2, none)
  else (Status.ok, r.2, some ⟨fname⟩)

/-- Claim C7: FileExists computes a boolean from one stat call, false on any
stat failure (NotFound or other I/O errors alike), true on success, and never
propagates the backend error (the result type is Bool, not Status). -/
theorem fileExists_swallows_errors (s : Store) (fname : String) :
    (∀ e : Int, e < 0 → fileExistsFromCode e = false) ∧
    (∀ e : Int, 0 ≤ e → fileExistsFromCode e = true) ∧
    (FileExists s fname = fileExistsFromCode (radosStat s fname).1) ∧
    (FileExists s fname = true ↔ ∃ data, lookupObj s fname = some data) := by
  refine ⟨fun e he => ?_, fun e he => ?_, rfl, ?_⟩
  · simp [fileExistsFromCode, he]
  · simp [fileExistsFromCode, not_lt.mpr he]
  · unfold FileExists fileExistsFromCode radosStat
    cases h : lookupObj s fname with
    | none => simp [h]
    | some data => simp [h]

/-- Claim C8: NewWritableFile first issues the create-if-absent request; when
the create fails the failure surfaces at once as an error, the store is
untouched and no writer is constructed or returned; when it succeeds the
writer is returned with OK. The create fails exactly when the object already
exists (exclusive create). -/
theorem newWritableFile_create_gate (s : Store) (fname : String) :
    ((radosCreate s fname).1 < 0 ↔ ∃ data, lookupObj s fname = some data) ∧
    ((radosCreate s fname).1 < 0 →
      (NewWritableFile s fname).1.isOk = false ∧
      (NewWritableFile s fname).2.2 = none ∧
      (NewWritableFile s fname).2.1 = s) ∧
    (0 ≤ (radosCreate s fname).1 →
      (NewWritableFile s fname).1 = Status.ok ∧
      (NewWritableFile s fname).2.2 = some ⟨fname⟩) := by
  refine ⟨?_, fun h => ?_, fun h => ?_⟩
  · unfold radosCreate
    cases hl : lookupObj s fname with
    | none => simp [hl]
    | some data => simp [hl]
  · cases hl : lookupObj s fname with
    | none =>
        exfalso
        unfold radosCreate at h
        rw [hl] at h
        norm_num at h
    | some data =>
        simp [NewWritableFile, radosCreate, hl, Status.isOk]
  · cases hl : lookupObj s fname with
    | none =>
        simp [NewWritableFile, radosCreate, hl]
    | some data =>
        exfalso
        unfold radosCreate at h
        rw [hl] at h
        norm_num at h

/-- RadosSequentialFile: the object name and the uint64_t cursor off_. -/
structure RadosSequentialFile where
  fname : String
  off : Nat
deriving DecidableEq, Repr

/-- RadosEnv::NewSequentialFile: always constructs the reader (cursor 0) and
returns OK; the store is never consulted. -/
def NewSequentialFile (fname : String) : Status × RadosSequentialFile :=
  (Status.ok, ⟨fname, 0⟩)

/-- The body of RadosSequentialFile::Read given the backend read's result:
a negative code returns IOError with the cursor untouched; otherwise the
bytes are copied out, off_ advances by the byte count (uint64_t arithmetic)
and OK is returned. -/
def seqReadStep (f : RadosSequentialFile) (r : Except Int Bytes) :
    Status × RadosSequentialFile × Bytes :=
  match r with
  | Except.error e =>
      (Status.ioFail ("RadosSequentialFile::Read: " ++ f.fname) (-e), f, [])
  | Except.ok bs =>
      (Status.ok, { f with off := (f.off + bs.length) % U64 }, bs)

/-- RadosSequentialFile::Read against the store: one ranged read at the
cursor. -/
def RadosSequentialFile.Read (s : Store) (f : RadosSequentialFile) (n : Nat) :
    Status × RadosSequentialFile × Bytes :=
  seqReadStep f (radosReadObj s f.fname n f.off)

/-- RadosSequentialFile::Skip: off_ += n in uint64_t arithmetic, always OK,
no backend I/O. -/
def RadosSequentialFile.Skip (f : RadosSequentialFile) (n : Nat) :
    Status × RadosSequentialFile :=
  (Status.ok, { f with off := (f.off + n) % U64 })

/-- RadosRandomAccessFile: stateless, only the object name. -/
structure RadosRandomAccessFile where
  fname : String
deriving DecidableEq, Repr

/-- RadosEnv::NewRandomAccessFile: always constructs the reader, returns OK. -/
def NewRandomAccessFile (fname : String) : Status × RadosRandomAccessFile :=
  (Status.ok, ⟨fname⟩)

/-- RadosRandomAccessFile::Read: one ranged read at the given offset; no
cursor is read or written. -/
def RadosRandomAccessFile.Read (s : Store) (f : RadosRandomAccessFile)
    (offset n : Nat) : Status × Bytes :=
  match radosReadObj s f.fname n offset with
  | Except.error e =>
      (Status.ioFail ("RadosRandomAccessFile::Read: " ++ f.fname) (-e), [])
  | Except.ok bs => (Status.ok, bs)

/-- Claim C4: a failed backend read surfaces as an IOFailure with the cursor
unchanged; a successful Read(n) returns the bytes [cursor, cursor+n) of the
object (short only when the object ends first) and advances the cursor by
exactly the number of bytes returned. -/
theorem seqRead_contract (s : Store) (f : RadosSequentialFile) (n : Nat)
    (data : Bytes) (hobj : lookupObj s f.fname = some data)
    (hlen : data.length < U64) (hoff : f.off < U64) :
    (∀ e : Int, (seqReadStep f (Except.error e)).1.isOk = false ∧
      (seqReadStep f (Except.error e)).2.1 = f ∧
      (seqReadStep f (Except.error e)).2.2 = []) ∧
    ((f.Read s n).1 = Status.ok ∧
      (f.Read s n).2.2 = (data.drop f.off).take n ∧
      (f.Read s n).2.2.length ≤ n ∧
      (f.Read s n).2.1.off = f.off + (f.Read s n).2.2.length ∧
      ((f.Read s n).2.2.length < n → data.length ≤ f.off + (f.Read s n).2.2.length)) := by
  have hbs : ((data.drop f.off).take n).length = min n (data.length - f.off) := by
    simp
  have hnowrap : f.off + ((data.drop f.off).take n).length < U64 := by
    rw [hbs]
    rcases le_or_lt data.length f.off with hle | hlt
    · have : data.length - f.off = 0 := Nat.sub_eq_zero_of_le hle
      simp [this, hoff]
    · calc f.off + min n (data.length - f.off)
          ≤ f.off + (data.length - f.off) := by
            exact Nat.add_le_add_left (Nat.min_le_right _ _) _
        _ = data.length := Nat.add_sub_cancel' (Nat.le_of_lt hlt)
        _ < U64 := hlen
  refine ⟨fun e => ⟨rfl, rfl, rfl⟩, ?_⟩
  have hread : radosReadObj s f.fname n f.off =
      Except.ok ((data.drop f.off).take n) := by
    unfold radosReadObj
    rw [hobj]
  unfold RadosSequentialFile.Read
  rw [hread]
  unfold seqReadStep
  refine ⟨rfl, rfl, ?_, ?_, ?_⟩
  · rw [hbs]; exact Nat.min_le_left _ _
  · simp only
    exact Nat.mod_eq_of_lt hnowrap
  · intro hshort
    rw [hbs] at hshort ⊢
    have hmlt : data.length - f.off < n := by
      by_contra hge
      push_neg at hge
      rw [Nat.min_eq_left hge] at hshort
      exact absurd hshort (lt_irrefl n)
    rw [Nat.min_eq_right (Nat.le_of_lt hmlt)]
    rcases le_or_lt data.length f.off with hle | hlt
    · exact le_trans hle (Nat.le_add_right _ _)
    · rw [Nat.add_sub_cancel' (Nat.le_of_lt hlt)]

/-- Witness for C4 at a concrete store: object "f" holds three bytes and the
cursor sits at 1. -/
theorem seqRead_contract_witness :
    (∀ e : Int,
      (seqReadStep ⟨"f", 1⟩ (Except.error e)).1.isOk = false ∧
      (seqReadStep ⟨"f", 1⟩ (Except.error e)).2.1 = (⟨"f", 1⟩ : RadosSequentialFile) ∧
      (seqReadStep ⟨"f", 1⟩ (Except.error e)).2.2 = []) ∧
    ((RadosSequentialFile.Read [("f", [10, 20, 30])] ⟨"f", 1⟩ 5).1 = Status.ok ∧
      (RadosSequentialFile.Read [("f", [10, 20, 30])] ⟨"f", 1⟩ 5).2.2 =
        (([10, 20, 30] : Bytes).drop 1).take 5 ∧
      (RadosSequentialFile.Read [("f", [10, 20, 30])] ⟨"f", 1⟩ 5).2.2.length ≤ 5 ∧
      (RadosSequentialFile.Read [("f", [10, 20, 30])] ⟨"f", 1⟩ 5).2.1.off =
        1 + (RadosSequentialFile.Read [("f", [10, 20, 30])] ⟨"f", 1⟩ 5).2.2.length ∧
      ((RadosSequentialFile.Read [("f", [10, 20, 30])] ⟨"f", 1⟩ 5).2.2.length < 5 →
        ([10, 20, 30] : Bytes).length ≤
          1 + (RadosSequentialFile.Read [("f", [10, 20, 30])] ⟨"f", 1⟩ 5).2.2.length)) :=
  seqRead_contract [("f", [10, 20, 30])] ⟨"f", 1⟩ 5 [10, 20, 30]
    (by decide) (by decide) (by decide)

/-- Claim C5: Skip(k) on a fresh sequential reader followed by Read(n) yields
the same bytes as Read(offset = k, n) on a random-access reader over the same
object, for every k up to the object length. -/
theorem skip_read_agrees_random (s : Store) (name : String) (data : Bytes)
    (k n : Nat) (hobj : lookupObj s name = some data) (hk : k ≤ data.length)
    (hlen : data.length < U64) :
    ((((NewSequentialFile name).2.Skip k).2).Read s n).2.2 =
      (RadosRandomAccessFile.Read s (NewRandomAccessFile name).2 k n).2 := by
  have hkU : k < U64 := lt_of_le_of_lt hk hlen
  have hskip : (((NewSequentialFile name).2.Skip k).2).off = k := by
    unfold NewSequentialFile RadosSequentialFile.Skip
    simp only
    rw [Nat.zero_add]
    exact Nat.mod_eq_of_lt hkU
  have hname : (((NewSequentialFile name).2.Skip k).2).fname = name := rfl
  unfold RadosSequentialFile.Read RadosRandomAccessFile.Read
  rw [hskip, hname, show (NewRandomAccessFile name).2.fname = name from rfl]
  have hread : radosReadObj s name n k = Except.ok ((data.drop k).take n) := by
    unfold radosReadObj
    rw [hobj]
  rw [hread]
  rfl

/-- Witness for C5: object of three bytes, skip 1, read 2. -/
theorem skip_read_agrees_random_witness :
    ((((NewSequentialFile "f").2.Skip 1).2).Read [("f", [7, 8, 9])] 2).2.2 =
      (RadosRandomAccessFile.Read [("f", [7, 8, 9])] (NewRandomAccessFile "f").2 1 2).2 :=
  skip_read_agrees_random [("f", [7, 8, 9])] "f" [7, 8, 9] 1 2
    (by decide) (by decide) (by decide)

/-- Claim C10: opening a sequential or random-access reader succeeds for every
name, whether or not the object exists; a missing object surfaces only at the
first Read, as an IOFailure that leaves the cursor untouched. -/
theorem open_readers_lazy (s : Store) (fname : String) (n off : Nat)
    (hmiss : lookupObj s fname = none) :
    (NewSequentialFile fname).1 = Status.ok ∧
    (NewRandomAccessFile fname).1 = Status.ok ∧
    ((NewSequentialFile fname).2.Read s n).1.isOk = false ∧
    ((NewSequentialFile fname).2.Read s n).2.1 = (NewSequentialFile fname).2 ∧
    (RadosRandomAccessFile.Read s (NewRandomAccessFile fname).2 off n).1.isOk = false := by
  have hread : radosReadObj s fname n 0 = Except.error (-2) := by
    unfold radosReadObj; rw [hmiss]
  have hread2 : radosReadObj s fname n off = Except.error (-2) := by
    unfold radosReadObj; rw [hmiss]
  refine ⟨rfl, rfl, ?_, ?_, ?_⟩
  · unfold RadosSequentialFile.Read
    rw [show (NewSequentialFile fname).2.off = 0 from rfl,
      show (NewSequentialFile fname).2.fname = fname from rfl, hread]
    rfl
  · unfold RadosSequentialFile.Read
    rw [show (NewSequentialFile fname).2.off = 0 from rfl,
      show (NewSequentialFile fname).2.fname = fname from rfl, hread]
    rfl
  · unfold RadosRandomAccessFile.Read
    rw [show (NewRandomAccessFile fname).2.fname = fname from rfl, hread2]
    rfl

/-- Witness for C10 on the empty store and the name "missing". -/
theorem open_readers_lazy_witness :
    (NewSequentialFile "missing").1 = Status.ok ∧
    (NewRandomAccessFile "missing").1 = Status.ok ∧
    ((NewSequentialFile "missing").2.Read [] 4).1.isOk = false ∧
    ((NewSequentialFile "missing").2.Read [] 4).2.1 = (NewSequentialFile "missing").2 ∧
    (RadosRandomAccessFile.Read [] (NewRandomAccessFile "missing").2 2 4).1.isOk = false :=
  open_readers_lazy [] "missing" 4 2 (by decide)

/-- The Outstanding Completion Set of asynchronous appends issued on the
shared IoCtx: for each issued-but-unacknowledged operation, the result code
the backend will eventually acknowledge it with (0 or more on success,
negative on failure), fixed by the environment at issue time. -/
structure AioState where
  outstanding : List Int
deriving DecidableEq, Repr

/-- IoCtx::aio_append: queue the operation on the outstanding set. -/
def aioAppend (a : AioState) (complResult : Int) : AioState :=
  ⟨a.outstanding ++ [complResult]⟩

/-- IoCtx::aio_flush at the backend boundary (the spec's section 6
wait-for-all-outstanding primitive): block until every outstanding completion
is acknowledged, emptying the set, and report a failed completion's code
(0 when all succeeded). -/
def aioFlush (a : AioState) : Int × AioState :=
  (match a.outstanding.find? (fun r => decide (r < 0)) with
   | some e => e
   | none => 0,
   ⟨[]⟩)

/-- RadosWritableFile::Append (RadosEnv.cpp variant): copy the data, create a
completion and aio_append; a negative issue code surfaces as IOError and
queues nothing, otherwise the completion joins the outstanding set and OK
returns without waiting. -/
def RadosWritableFile.Append (f : RadosWritableFile) (a : AioState)
    (issueCode complResult : Int) : Status × AioState :=
  if issueCode < 0 then
    (Status.ioFail ("RadosWriteableFile/Append: " ++ f.fname) (-issueCode), a)
  else
    (Status.ok, aioAppend a complResult)

/-- RadosWritableFile::Sync (RadosEnv.cpp variant): err = ctx->aio_flush();
a negative code surfaces as IOError, otherwise OK. -/
def RadosWritableFile.Sync (f : RadosWritableFile) (a : AioState) :
    Status × AioState :=
  if (aioFlush a).1 < 0 then
    (Status.ioFail ("RadosWriteableFile/Sync: " ++ f.fname) (-(aioFlush a).1),
      (aioFlush a).2)
  else (Status.ok, (aioFlush a).2)

/-- RadosEnv::RenameFile: stat src; read the full src content; write_full it
to target; remove src; each failing step aborts with its own IOError and
leaves the steps already done applied. -/
def RenameFile (s : Store) (src target : String) : Status × Store :=
  if (radosStat s src).1 < 0 then
    (Status.ioFail ("RenameFile/stat: " ++ src) (-(radosStat s src).1), s)
  else
    match radosReadObj s src (radosStat s src).2 0 with
    | Except.error e => (Status.ioFail ("RenameFile/read: " ++ src) (-e), s)
    | Except.ok bl =>
        if (radosWriteFull s target bl).1 < 0 then
          (Status.ioFail ("RenameFile/write_full: " ++ target)
            (-(radosWriteFull s target bl).1), (radosWriteFull s target bl).2)
        else
          if (radosRemove (radosWriteFull s target bl).2 src).1 < 0 then
            (Status.ioFail ("RenameFile/remove: " ++ src)
              (-(radosRemove (radosWriteFull s target bl).2 src).1),
              (radosRemove (radosWriteFull s target bl).2 src).2)
          else (Status.ok, (radosRemove (radosWriteFull s target bl).2 src).2)

theorem lookupObj_erase_self (s : Store) (k : String) :
    lookupObj (eraseObj s k) k = none := by
  induction s with
  | nil => rfl
  | cons kv rest ih =>
      obtain ⟨k', v⟩ := kv
      by_cases hk : k' = k
      · simp [eraseObj, hk, ih]
      · simp [eraseObj, lookupObj, hk, ih]

theorem lookupObj_erase_ne (s : Store) (k name : String) (h : name ≠ k) :
    lookupObj (eraseObj s k) name = lookupObj s name := by
  induction s with
  | nil => rfl
  | cons kv rest ih =>
      obtain ⟨k', v⟩ := kv
      by_cases hk : k' = k
      · subst hk
        have hne : ¬ (k' = name) := fun hc => h hc.symm
        simp [eraseObj, lookupObj, hne, ih]
      · simp [eraseObj, lookupObj, hk, ih]

theorem lookupObj_insert_self (s : Store) (name : String) (v : Bytes) :
    lookupObj (insertObj s name v) name = some v := by
  simp [insertObj, lookupObj]

theorem lookupObj_insert_ne (s : Store) (k name : String) (v : Bytes)
    (h : name ≠ k) : lookupObj (insertObj s k v) name = lookupObj s name := by
  have hne : ¬ (k = name) := fun hc => h hc.symm
  simp [insertObj, lookupObj, hne, lookupObj_erase_ne s k name h]

/-- Claim C1: Sync drains the Outstanding Completion Set — after it returns
the set is empty, so it never reports success while an append is still
unacknowledged — and it returns OK exactly when every outstanding append
completed without failure. -/
theorem sync_durability_barrier (f : RadosWritableFile) (a : AioState) :
    (f.Sync a).2.outstanding = [] ∧
    ((f.Sync a).1 = Status.ok ↔ ∀ r ∈ a.outstanding, 0 ≤ r) := by
  unfold RadosWritableFile.Sync
  constructor
  · split <;> rfl
  · cases hf : a.outstanding.find? (fun r => decide (r < 0)) with
    | none =>
        have hall : ∀ r ∈ a.outstanding, 0 ≤ r := by
          intro r hr
          have := List.find?_eq_none.mp hf r hr
          simpa using this
        have h1 : (aioFlush a).1 = 0 := by simp [aioFlush, hf]
        rw [h1]
        norm_num
        exact hall
    | some e =>
        have he : e < 0 := by
          have := List.find?_some hf
          simpa using this
        have hmem : e ∈ a.outstanding := List.mem_of_find?_eq_some hf
        have h1 : (aioFlush a).1 = e := by simp [aioFlush, hf]
        rw [h1, if_pos he]
        exact ⟨fun hc => Status.noConfusion hc,
          fun hall => absurd (hall e hmem) (not_le.mpr he)⟩

/-- Claim C2 as stated fails when src = dst: renaming "a" (holding one byte)
onto itself returns success, yet afterwards the destination does not hold the
source's bytes — the name is gone entirely. -/
theorem renameFile_self_cex :
    (RenameFile [("a", [88])] "a" "a").1 = Status.ok ∧
    lookupObj (RenameFile [("a", [88])] "a" "a").2 "a" = none := by
  constructor <;> rfl

/-- Claim C2 amended: for distinct names src ≠ dst with src present, Rename
succeeds, dst afterwards holds exactly the bytes src held (overwriting any
prior dst content) and src no longer exists. -/
theorem renameFile_moves (s : Store) (src target : String) (data : Bytes)
    (hsrc : lookupObj s src = some data) (hne : src ≠ target) :
    (RenameFile s src target).1 = Status.ok ∧
    lookupObj (RenameFile s src target).2 target = some data ∧
    lookupObj (RenameFile s src target).2 src = none := by
  have hstat : radosStat s src = (0, data.length) := by
    unfold radosStat; rw [hsrc]
  have hread : radosReadObj s src data.length 0 = Except.ok data := by
    unfold radosReadObj; rw [hsrc]; simp
  have hlook : lookupObj (insertObj s target data) src = some data := by
    rw [lookupObj_insert_ne s target src data hne, hsrc]
  have hrm : radosRemove (insertObj s target data) src =
      (0, eraseObj (insertObj s target data) src) := by
    unfold radosRemove; rw [hlook]
  norm_num [RenameFile, hstat, hread, radosWriteFull, hrm]
  rw [lookupObj_erase_ne _ _ _ (Ne.symm hne), lookupObj_insert_self,
    lookupObj_erase_self]
  exact ⟨rfl, rfl⟩

/-- Witness for the amended C2: the spec's own scenario, "a.tmp" holding "X"
renamed to the absent "a.log". -/
theorem renameFile_moves_witness :
    (RenameFile [("a.tmp", [88])] "a.tmp" "a.log").1 = Status.ok ∧
    lookupObj (RenameFile [("a.tmp", [88])] "a.tmp" "a.log").2 "a.log" = some [88] ∧
    lookupObj (RenameFile [("a.tmp", [88])] "a.tmp" "a.log").2 "a.tmp" = none :=
  renameFile_moves [("a.tmp", [88])] "a.tmp" "a.log" [88] (by decide) (by decide)

/-- Claim C9: Rename(x, x) on an existing object succeeds and ends with the
remove-of-source step deleting the object just written as the destination:
the name is absent afterwards and its content lost. -/
theorem renameFile_self_removes (s : Store) (x : String) (data : Bytes)
    (h : lookupObj s x = some data) :
    (RenameFile s x x).1 = Status.ok ∧
    lookupObj (RenameFile s x x).2 x = none := by
  have hstat : radosStat s x = (0, data.length) := by
    unfold radosStat; rw [h]
  have hread : radosReadObj s x data.length 0 = Except.ok data := by
    unfold radosReadObj; rw [h]; simp
  have hrm : radosRemove (insertObj s x data) x =
      (0, eraseObj (insertObj s x data) x) := by
    unfold radosRemove; rw [lookupObj_insert_self s x data]
  norm_num [RenameFile, hstat, hread, radosWriteFull, hrm]
  exact lookupObj_erase_self _ _

/-- Witness for C9: a two-byte object "b" renamed onto itself disappears. -/
theorem renameFile_self_removes_witness :
    (RenameFile [("b", [1, 2])] "b" "b").1 = Status.ok ∧
    lookupObj (RenameFile [("b", [1, 2])] "b" "b").2 "b" = none :=
  renameFile_self_removes [("b", [1, 2])] "b" [1, 2] (by decide)

/-- The characters after the last '/' of a name (the accumulator resets at
each separator). -/
def afterLastSlash : List Char → List Char → List Char
  | [], acc => acc
  | c :: rest, acc =>
      if c = '/' then afterLastSlash rest [] else afterLastSlash rest (acc ++ [c])

/-- boost::filesystem::path(name).filename(): the component after the last
separator; "." for a name ending in the separator; "" for the empty name. -/
def filenameOf (s : String) : String :=
  match s.data.getLast? with
  | none => ""
  | some c => if c = '/' then "." else String.mk (afterLastSlash s.data [])

/-- RadosEnv::GetChildren: clear the result, then push path(oid).filename()
for every object the pool enumeration yields; the dir argument is never
consulted and no prefix test is made. -/
def GetChildren (s : Store) (_dir : String) : Status × List String :=
  (Status.ok, s.map (fun kv => filenameOf kv.1))

/-- Whether the first character list starts the second. -/
def isPrefixList : List Char → List Char → Bool
  | [], _ => true
  | _ :: _, [] => false
  | a :: as, b :: bs => a == b && isPrefixList as bs

/-- The spec's words for ListChildren (section 4.4), for comparison with
GetChildren: keep exactly the objects whose name carries the given prefix
and return their names with that prefix stripped. -/
def specListChildren (s : Store) (pre : String) : List String :=
  (s.filter (fun kv => isPrefixList pre.data kv.1.data)).map
    (fun kv => String.mk (kv.1.data.drop pre.data.length))

/-- Claim C3 as stated fails: with one object "other/x" outside the prefix
"dir", GetChildren still returns its basename "x", while the spec's
filter-and-strip behaviour returns nothing. -/
theorem getChildren_prefix_cex :
    (GetChildren [("other/x", [1])] "dir").2 = ["x"] ∧
    specListChildren [("other/x", [1])] "dir" = [] := by
  constructor <;> rfl

/-- Claim C3 amended: GetChildren succeeds and returns the final path
component (basename) of every backend object name, one entry per object,
ignoring the dir argument entirely — no prefix filtering and no stripping of
the given prefix occur — and the result is independent of enumeration order:
its members are exactly the basenames of the pool's objects, and permuting
the pool permutes the result. -/
theorem getChildren_basenames (s1 s2 : Store) (dir dir2 : String)
    (hperm : s1.Perm s2) :
    (GetChildren s1 dir).1 = Status.ok ∧
    (GetChildren s1 dir).2 = (GetChildren s1 dir2).2 ∧
    ((GetChildren s1 dir).2).Perm ((GetChildren s2 dir).2) ∧
    (∀ name, name ∈ (GetChildren s1 dir).2 ↔
      ∃ kv ∈ s1, filenameOf kv.1 = name) := by
  refine ⟨rfl, rfl, ?_, ?_⟩
  · exact hperm.map _
  · intro name
    simp [GetChildren]

/-- Witness for the amended C3 on a two-object pool and its reversal. -/
theorem getChildren_basenames_witness :
    (GetChildren [("a/x", [1]), ("b/y", [2])] "p").1 = Status.ok ∧
    (GetChildren [("a/x", [1]), ("b/y", [2])] "p").2 =
      (GetChildren [("a/x", [1]), ("b/y", [2])] "q").2 ∧
    ((GetChildren [("a/x", [1]), ("b/y", [2])] "p").2).Perm
      ((GetChildren [("b/y", [2]), ("a/x", [1])] "p").2) ∧
    (∀ name, name ∈ (GetChildren [("a/x", [1]), ("b/y", [2])] "p").2 ↔
      ∃ kv ∈ ([("a/x", [1]), ("b/y", [2])] : Store), filenameOf kv.1 = name) :=
  getChildren_basenames [("a/x", [1]), ("b/y", [2])] [("b/y", [2]), ("a/x", [1])]
    "p" "q" (by decide)

/-- The two operations that touch a sequential reader's cursor. -/
inductive SeqOp where
  | read (n : Nat) : SeqOp
  | skip (n : Nat) : SeqOp
deriving DecidableEq, Repr

/-- One sequential-reader operation applied to the reader state. -/
def stepSeq (s : Store) (f : RadosSequentialFile) : SeqOp → RadosSequentialFile
  | SeqOp.read n => (f.Read s n).2.1
  | SeqOp.skip n => (f.Skip n).2

/-- A sequence of operations applied left to right. -/
def runSeq (s : Store) (f : RadosSequentialFile) : List SeqOp → RadosSequentialFile
  | [] => f
  | op :: ops => runSeq s (stepSeq s f op) ops

/-- The cursor advance an operation requests: an upper bound on the advance
it achieves. -/
def reqAmount : SeqOp → Nat
  | SeqOp.read n => n
  | SeqOp.skip n => n

/-- The total requested advance of a sequence of operations. -/
def reqSum (ops : List SeqOp) : Nat :=
  (ops.map reqAmount).sum

theorem stepSeq_off_bounds (s : Store) (f : RadosSequentialFile) (op : SeqOp)
    (h : f.off + reqAmount op < U64) :
    f.off ≤ (stepSeq s f op).off ∧ (stepSeq s f op).off ≤ f.off + reqAmount op := by
  cases op with
  | skip n =>
      have hm : (f.off + n) % U64 = f.off + n := Nat.mod_eq_of_lt h
      simp only [stepSeq, RadosSequentialFile.Skip]
      rw [hm]
      exact ⟨Nat.le_add_right _ _, le_refl _⟩
  | read n =>
      simp only [stepSeq, RadosSequentialFile.Read]
      cases hl : lookupObj s f.fname with
      | none =>
          have hr : radosReadObj s f.fname n f.off = Except.error (-2) := by
            unfold radosReadObj; rw [hl]
          rw [hr]
          unfold seqReadStep
          exact ⟨le_refl _, Nat.le_add_right _ _⟩
      | some data =>
          have hr : radosReadObj s f.fname n f.off =
              Except.ok ((data.drop f.off).take n) := by
            unfold radosReadObj; rw [hl]
          rw [hr]
          unfold seqReadStep
          simp only
          have hlen : ((data.drop f.off).take n).length ≤ n := by
            rw [List.length_take]
            exact Nat.min_le_left _ _
          have hwrap : f.off + ((data.drop f.off).take n).length < U64 :=
            lt_of_le_of_lt (Nat.add_le_add_left hlen _) h
          rw [Nat.mod_eq_of_lt hwrap]
          exact ⟨Nat.le_add_right _ _, Nat.add_le_add_left hlen _⟩

theorem runSeq_append_single (s : Store) (f : RadosSequentialFile)
    (ops : List SeqOp) (op : SeqOp) :
    runSeq s f (ops ++ [op]) = stepSeq s (runSeq s f ops) op := by
  induction ops generalizing f with
  | nil => rfl
  | cons o rest ih => simp [runSeq, ih]

theorem runSeq_off_le (s : Store) (f : RadosSequentialFile) (ops : List SeqOp)
    (h : f.off + reqSum ops < U64) :
    (runSeq s f ops).off ≤ f.off + reqSum ops := by
  induction ops generalizing f with
  | nil => simp [runSeq, reqSum]
  | cons op rest ih =>
      have hsum : reqSum (op :: rest) = reqAmount op + reqSum rest := by
        simp [reqSum]
      have h1 : f.off + reqAmount op < U64 := by
        rw [hsum] at h; omega
      have hb := (stepSeq_off_bounds s f op h1).2
      have h2 : (stepSeq s f op).off + reqSum rest < U64 := by
        rw [hsum] at h; omega
      calc (runSeq s f (op :: rest)).off
          = (runSeq s (stepSeq s f op) rest).off := rfl
        _ ≤ (stepSeq s f op).off + reqSum rest := ih _ h2
        _ ≤ f.off + reqAmount op + reqSum rest := by omega
        _ = f.off + reqSum (op :: rest) := by rw [hsum]; omega

/-- Claim C6 as stated fails: from cursor 2, Skip(2^64 - 1) wraps the
uint64_t cursor to 1, moving it backward. -/
theorem seq_cursor_wraps_cex :
    (runSeq [] (NewSequentialFile "f").2 [SeqOp.skip 2, SeqOp.skip (U64 - 1)]).off <
    (runSeq [] (NewSequentialFile "f").2 [SeqOp.skip 2]).off := by
  decide

/-- Claim C6 amended: the cursor is mutated only by Read and Skip, and no
operation moves it backward while the uint64_t cursor arithmetic cannot wrap,
i.e. as long as the start offset plus the total requested advance stays below
2^64; a Skip whose 64-bit addition wraps does move it backward. -/
theorem seq_cursor_monotone (s : Store) (f : RadosSequentialFile)
    (ops : List SeqOp) (op : SeqOp)
    (h : f.off + reqSum (ops ++ [op]) < U64) :
    (runSeq s f ops).off ≤ (runSeq s f (ops ++ [op])).off := by
  have hsum : reqSum (ops ++ [op]) = reqSum ops + reqAmount op := by
    simp [reqSum]
  rw [runSeq_append_single]
  have h1 : f.off + reqSum ops < U64 := by rw [hsum] at h; omega
  have hle := runSeq_off_le s f ops h1
  have h2 : (runSeq s f ops).off + reqAmount op < U64 := by
    rw [hsum] at h; omega
  exact (stepSeq_off_bounds s (runSeq s f ops) op h2).1

/-- Witness for the amended C6: [Skip 1] extended by Skip 2 does not move the
cursor back. -/
theorem seq_cursor_monotone_witness :
    (runSeq [] (NewSequentialFile "f").2 [SeqOp.skip 1]).off ≤
    (runSeq [] (NewSequentialFile "f").2 [SeqOp.skip 1, SeqOp.skip 2]).off :=
  seq_cursor_monotone [] (NewSequentialFile "f").2 [SeqOp.skip 1] (SeqOp.skip 2)
    (by decide)

end RadosLevelDB
